import Mathlib

/-!
Shallow embedding of the Omega interpreter core (src/interpreter/vm.c and
src/interpreter/compiler.c).

Conventions of the embedding:
* The VM value stack is a `List Value` indexed from the bottom: index 0 is the
  bottom slot and the last element is the top of the stack, so `push` appends
  and `pop` removes the last element, matching the C `stackTop` pointer.
* Heap objects that the interpreter mutates in place (arrays, dicts, class
  instances) live in per-kind heaps inside `Heap`; a stack value holds the
  index of the object in its heap, playing the role of the C object pointer.
* Open upvalues are kept, as in `vm.c`, as a list of stack-slot addresses
  sorted in descending order; the value copied on close is not needed by any
  claim and is not tracked.
* IEEE doubles are modelled by the rationals `ℚ`; the C cast `(int)d`
  (truncation toward zero) is `truncQ`.
* `runtimeError` is modelled by an error outcome carrying the message text;
  branches that are C undefined behaviour (dangling references, stack
  underflow) are explicit guard branches marked "unreachable".
-/

namespace Omega

/-- Return-type annotations, from `FunctionReturnType` (compiler.h interface,
mirrored by `parseReturnType` in compiler.c and `checkReturnType` in vm.c). -/
inductive FunctionReturnType where
  | TYPE_NONE
  | TYPE_VOID
  | TYPE_INT
  | TYPE_FLOAT
  | TYPE_STRING
  | TYPE_BOOL
deriving DecidableEq, Repr

/-- Function prototype (`ObjFunction`): arity, upvalue count, declared return
type and name. The owned chunk is modelled separately where a claim needs it. -/
structure ObjFunction where
  arity : Nat
  upvalueCount : Nat
  returnType : FunctionReturnType
  name : Option String
deriving DecidableEq, Repr

/-- Closure (`ObjClosure`): reference to a function. The upvalue vector is
modelled separately by the open-upvalue address list (see `captureUpvalue`). -/
structure ObjClosure where
  function : ObjFunction
deriving DecidableEq, Repr

/-- Class (`ObjClass`): name plus method table mapping method names to
closures. -/
structure ObjClass where
  name : String
  methods : List (String × ObjClosure)
deriving DecidableEq, Repr

/-- The ten native functions registered by `initVM` in vm.c. -/
inductive NativeId where
  | clockN | timeN | termN | prependN | appendN | headN | tailN | restN
  | removeN | lengthN
deriving DecidableEq, Repr

/-- Runtime values: the tagged sum over nil, booleans, numbers and object
references from value.h/object.h. Strings are interned in the VM, so string
equality is structural here; arrays, dicts and instances are mutable heap
objects and are represented by their index into the corresponding heap. -/
inductive Value where
  | vnil
  | vbool (b : Bool)
  | vnum (q : ℚ)
  | vstr (s : String)
  | vfunction (f : ObjFunction)
  | vclosure (c : ObjClosure)
  | vclass (k : ObjClass)
  | vboundMethod (receiver : Value) (method : ObjClosure)
  | vnative (id : NativeId)
  | arrayRef (r : Nat)
  | dictRef (r : Nat)
  | instanceRef (r : Nat)
deriving DecidableEq, Repr

/-- Class instance (`ObjInstance`): its class and its field table. -/
structure Instance where
  klass : ObjClass
  fields : List (String × Value)
deriving DecidableEq, Repr

/-- Modelled from the spec: the string-keyed hash-table module (table.c is not
under src/). `tableSet` inserts or overwrites the entry for a key. -/
def tableSet {α : Type} : List (String × α) → String → α → List (String × α)
  | [], k, v => [(k, v)]
  | e :: rest, k, v => if e.1 = k then (k, v) :: rest else e :: tableSet rest k v

/-- Modelled from the spec: hash-table lookup (table.c is not under src/). -/
def tableGet {α : Type} : List (String × α) → String → Option α
  | [], _ => none
  | e :: rest, k => if e.1 = k then some e.2 else tableGet rest k

/-- Modelled from the spec: hash-table deletion (table.c is not under src/). -/
def tableDelete {α : Type} (t : List (String × α)) (k : String) :
    List (String × α) :=
  t.filter (fun e => e.1 != k)

/-- `writeDict` from object.c (not under src/): store under a string key,
overwriting an existing entry. Modelled from the spec as table insertion. -/
def writeDict (items : List (String × Value)) (k : String) (v : Value) :
    List (String × Value) :=
  tableSet items k v

/-- One call frame: closure, instruction pointer and the base ("slots") index
of the frame into the value stack. -/
structure Frame where
  closure : ObjClosure
  ip : Nat
  slots : Nat
deriving DecidableEq, Repr

/-- The mutable heaps for in-place-mutated aggregate objects. -/
structure Heap where
  arrays : List (List Value)
  dicts : List (List (String × Value))
  instances : List Instance
deriving DecidableEq, Repr

/-- The VM state relevant to the claims: value stack (bottom at index 0,
top at the end), frame stack (current frame first), open-upvalue list
(stack-slot addresses, descending) and the heaps. -/
structure VMSt where
  stack : List Value
  frames : List Frame
  openUpvalues : List Nat
  heap : Heap
deriving DecidableEq, Repr

/-- `peek(distance)` from vm.c: read `distance` slots below the stack top. -/
def peekV (st : VMSt) (distance : Nat) : Value :=
  st.stack.getD (st.stack.length - 1 - distance) Value.vnil

def isNilV : Value → Bool
  | .vnil => true
  | _ => false

def isNumberV : Value → Bool
  | .vnum _ => true
  | _ => false

def isStringV : Value → Bool
  | .vstr _ => true
  | _ => false

def isBoolV : Value → Bool
  | .vbool _ => true
  | _ => false

/-- Callee values that fall through to the "Can only call functions and
classes." error in `callValue` (vm.c lines 311-348): everything that is not a
bound method, class, closure or native. -/
def isNotCallable : Value → Bool
  | .vboundMethod _ _ => false
  | .vclass _ => false
  | .vclosure _ => false
  | .vnative _ => false
  | _ => true

/-- The C cast `(int)d` on a double: truncation toward zero. On a reduced
rational this is T-division of the numerator by the denominator. -/
def truncQ (q : ℚ) : Int :=
  q.num.tdiv (q.den : Int)

/-- `checkReturnType` from vm.c lines 294-309: dynamic check of a returned
value against the function's declared return type. -/
def checkReturnType (f : ObjFunction) (returnValue : Value) : Bool :=
  match f.returnType with
  | .TYPE_NONE => true
  | .TYPE_VOID => isNilV returnValue
  | .TYPE_INT => isNumberV returnValue
  | .TYPE_FLOAT => isNumberV returnValue
  | .TYPE_STRING => isStringV returnValue
  | .TYPE_BOOL => isBoolV returnValue

/-- Follows the spec's words (claim C1): VOID requires nil, INT and FLOAT
require a number, STRING requires a string, BOOL requires a boolean, NONE
admits anything. Stated independently of `checkReturnType` so the code's
check can be compared against it. -/
def specReturnTypeMatches : FunctionReturnType → Value → Prop
  | .TYPE_NONE, _ => True
  | .TYPE_VOID, v => v = Value.vnil
  | .TYPE_INT, v => ∃ q, v = Value.vnum q
  | .TYPE_FLOAT, v => ∃ q, v = Value.vnum q
  | .TYPE_STRING, v => ∃ s, v = Value.vstr s
  | .TYPE_BOOL, v => ∃ b, v = Value.vbool b

/-- `captureUpvalue` from vm.c lines 392-414, acting on the open-upvalue list
of stack addresses (descending): walk past entries above `local`; reuse an
existing entry for the same slot; otherwise insert a new one in place. -/
def captureUpvalue : List Nat → Nat → List Nat
  | [], local_ => [local_]
  | u :: rest, local_ =>
    if local_ < u then u :: captureUpvalue rest local_
    else if u = local_ then u :: rest
    else local_ :: u :: rest

/-- `closeUpvalues` from vm.c lines 416-424: pop open upvalues from the head
of the list while their address is at or above `last`. -/
def closeUpvalues : List Nat → Nat → List Nat
  | [], _ => []
  | u :: rest, last_ => if last_ ≤ u then closeUpvalues rest last_ else u :: rest

/-- Outcome of the `OP_RETURN` handler. -/
inductive RetOutcome where
  | halt
  | err (msg : String)
  | next (st : VMSt)
deriving DecidableEq, Repr

/-- The `OP_RETURN` case of `run` (vm.c lines 790-810): pop the result, close
upvalues at or above the frame base, pop the frame; if it was the outermost
frame, halt with OK; otherwise run the dynamic return-type check when a
return type was declared, then shrink the stack to the frame base and push
the result. -/
def opReturn (st : VMSt) : RetOutcome :=
  match st.frames with
  | [] => .err "no active frame (unreachable)"
  | frame :: restFrames =>
    match st.stack.getLast? with
    | none => .err "stack underflow (unreachable)"
    | some result =>
      let stack1 := st.stack.dropLast
      let open1 := closeUpvalues st.openUpvalues frame.slots
      match restFrames with
      | [] => .halt
      | _ :: _ =>
        if frame.closure.function.returnType ≠ FunctionReturnType.TYPE_NONE
            ∧ checkReturnType frame.closure.function result = false then
          .err "SKILL ISSUE: Invalid return type."
        else
          .next { st with
            stack := stack1.take frame.slots ++ [result],
            frames := restFrames,
            openUpvalues := open1 }

/-- `call` from vm.c lines 277-292: arity check, then push a frame whose base
is `stackTop - argCount - 1` and whose ip is the start of the chunk. -/
def call (closure : ObjClosure) (argCount : Nat) (st : VMSt) :
    Except String VMSt :=
  if argCount ≠ closure.function.arity then
    .error ("SKILL ISSUE: Expected " ++ toString closure.function.arity
      ++ " arguments but got " ++ toString argCount ++ ".")
  else
    .ok { st with
      frames := ⟨closure, 0, st.stack.length - argCount - 1⟩ :: st.frames }

/-- `arrayPrepend` (vm.c lines 77-94): in-place shift right and write slot 0.
Result triple: (a runtime error was reported, returned value, heap after). -/
def arrayPrepend (argCount : Nat) (args : List Value) (H : Heap) :
    Bool × Value × Heap :=
  if argCount ≠ 2 then (true, .vnil, H) else
  match args.headD .vnil with
  | .arrayRef r =>
    match H.arrays[r]? with
    | some elems =>
      (false, .vnil,
        { H with arrays := H.arrays.set r ((args.getD 1 .vnil) :: elems) })
    | none => (true, .vnil, H)
  | _ => (true, .vnil, H)

/-- `arrayAppend` (vm.c lines 96-108). -/
def arrayAppend (argCount : Nat) (args : List Value) (H : Heap) :
    Bool × Value × Heap :=
  if argCount ≠ 2 then (true, .vnil, H) else
  match args.headD .vnil with
  | .arrayRef r =>
    match H.arrays[r]? with
    | some elems =>
      (false, .vnil,
        { H with arrays := H.arrays.set r (elems ++ [args.getD 1 .vnil]) })
    | none => (true, .vnil, H)
  | _ => (true, .vnil, H)

/-- `arrayHead` (vm.c lines 110-131): on an empty array report a runtime
error and return nil; otherwise remove and return element 0, shifting the
rest down. -/
def arrayHead (argCount : Nat) (args : List Value) (H : Heap) :
    Bool × Value × Heap :=
  if argCount ≠ 1 then (true, .vnil, H) else
  match args.headD .vnil with
  | .arrayRef r =>
    match H.arrays[r]? with
    | some elems =>
      if elems.length = 0 then (true, .vnil, H)
      else (false, elems.headD .vnil, { H with arrays := H.arrays.set r elems.tail })
    | none => (true, .vnil, H)
  | _ => (true, .vnil, H)

/-- `arrayTail` (vm.c lines 133-150): on an empty array report a runtime
error and return nil; otherwise remove and return the last element. -/
def arrayTail (argCount : Nat) (args : List Value) (H : Heap) :
    Bool × Value × Heap :=
  if argCount ≠ 1 then (true, .vnil, H) else
  match args.headD .vnil with
  | .arrayRef r =>
    match H.arrays[r]? with
    | some elems =>
      if elems.length = 0 then (true, .vnil, H)
      else (false, elems.getLastD .vnil,
        { H with arrays := H.arrays.set r elems.dropLast })
    | none => (true, .vnil, H)
  | _ => (true, .vnil, H)

/-- `arrayRest` (vm.c lines 152-170): on an empty array report a runtime
error and return nil; otherwise allocate a fresh array holding elements
1..n-1 of the argument, which is left unchanged. -/
def arrayRest (argCount : Nat) (args : List Value) (H : Heap) :
    Bool × Value × Heap :=
  if argCount ≠ 1 then (true, .vnil, H) else
  match args.headD .vnil with
  | .arrayRef r =>
    match H.arrays[r]? with
    | some elems =>
      if elems.length = 0 then (true, .vnil, H)
      else (false, .arrayRef H.arrays.length,
        { H with arrays := H.arrays ++ [elems.tail] })
    | none => (true, .vnil, H)
  | _ => (true, .vnil, H)

/-- `dictRemove` (vm.c lines 172-183). -/
def dictRemove (argCount : Nat) (args : List Value) (H : Heap) :
    Bool × Value × Heap :=
  if argCount ≠ 2 then (true, .vnil, H) else
  match args.headD .vnil, args.getD 1 .vnil with
  | .dictRef r, .vstr k =>
    match H.dicts[r]? with
    | some items =>
      (false, .vnil, { H with dicts := H.dicts.set r (tableDelete items k) })
    | none => (true, .vnil, H)
  | _, _ => (true, .vnil, H)

/-- `lengthNative` (vm.c lines 38-54). -/
def lengthNative (argCount : Nat) (args : List Value) (H : Heap) :
    Bool × Value × Heap :=
  if argCount ≠ 1 then (true, .vnil, H) else
  match args.headD .vnil with
  | .vstr s => (false, .vnum (s.length : ℚ), H)
  | .arrayRef r =>
    match H.arrays[r]? with
    | some elems => (false, .vnum (elems.length : ℚ), H)
    | none => (true, .vnil, H)
  | _ => (true, .vnil, H)

/-- Modelled from the spec: `clock`, `time` and `term` (vm.c lines 56-75)
read the host clock or spawn a subshell, effects outside the embedded state;
their numeric result is modelled as 0 and no claim depends on it. -/
def hostNative (argCount : Nat) (args : List Value) (H : Heap)
    (needsStringArg : Bool) : Bool × Value × Heap :=
  if needsStringArg ∧ (argCount ≠ 1 ∨ isStringV (args.headD .vnil) = false) then
    (true, .vnil, H)
  else (false, .vnum 0, H)

/-- Dispatch table for the registered natives (`defineNative` calls in
`initVM`, vm.c lines 239-248). -/
def runNative : NativeId → Nat → List Value → Heap → Bool × Value × Heap
  | .clockN, n, args, H => hostNative n args H false
  | .timeN, n, args, H => hostNative n args H false
  | .termN, n, args, H => hostNative n args H true
  | .prependN, n, args, H => arrayPrepend n args H
  | .appendN, n, args, H => arrayAppend n args H
  | .headN, n, args, H => arrayHead n args H
  | .tailN, n, args, H => arrayTail n args H
  | .restN, n, args, H => arrayRest n args H
  | .removeN, n, args, H => dictRemove n args H
  | .lengthN, n, args, H => lengthNative n args H

/-- `callValue` from vm.c lines 311-348: dispatch on the callee peeked
`argCount + 1` below the stack top. A bound method overwrites the callee slot
with the receiver and calls the method; a class overwrites the slot with a
fresh instance and calls `init` when present, otherwise requires zero
arguments; a closure is called directly; a native runs on the top `argCount`
slots, which are then replaced by its result; anything else is a runtime
error. -/
def callValue (st : VMSt) (argCount : Nat) : Except String VMSt :=
  match peekV st argCount with
  | .vboundMethod recv m =>
    call m argCount
      { st with stack := st.stack.set (st.stack.length - argCount - 1) recv }
  | .vclass k =>
    let st1 : VMSt := { st with
      stack := st.stack.set (st.stack.length - argCount - 1)
        (.instanceRef st.heap.instances.length),
      heap := { st.heap with instances := st.heap.instances ++ [⟨k, []⟩] } }
    match tableGet k.methods "init" with
    | some initMethod => call initMethod argCount st1
    | none =>
      if argCount ≠ 0 then
        .error ("SKILL ISSUE: Expected 0 arguments but got "
          ++ toString argCount ++ ".")
      else .ok st1
  | .vclosure c => call c argCount st
  | .vnative id =>
    let argsv := st.stack.drop (st.stack.length - argCount)
    let res := runNative id argCount argsv st.heap
    .ok { st with
      stack := st.stack.take (st.stack.length - argCount - 1) ++ [res.2.1],
      heap := res.2.2 }
  | _ => .error "SKILL ISSUE: Can only call functions and classes."

/-- The `OP_ARRAY` case of `run` (vm.c lines 830-841): build a fresh array
whose element `i` is `peek(n - i - 1)`, pop the `n` source values and push
the array reference. -/
def opArray (elementCount : Nat) (st : VMSt) : VMSt :=
  let rev := st.stack.reverse
  let elems := (List.range elementCount).map
    (fun i => rev.getD (elementCount - i - 1) Value.vnil)
  { st with
    stack := (rev.drop elementCount).reverse
      ++ [Value.arrayRef st.heap.arrays.length],
    heap := { st.heap with arrays := st.heap.arrays ++ [elems] } }

/-- The pop loop of the `OP_DICT` case (vm.c lines 898-912), processing the
stack from the top (given here reversed, top first): pop a value, pop its
key, require the key to be a string, and store the pair, overwriting
duplicates. Returns the dict entries and the rest of the (reversed) stack. -/
def dictPairsLoop :
    Nat → List (String × Value) → List Value →
    Except String (List (String × Value) × List Value)
  | 0, items, rev => .ok (items, rev)
  | n + 1, items, rev =>
    match rev with
    | value :: key :: rest =>
      match key with
      | .vstr s => dictPairsLoop n (writeDict items s value) rest
      | _ => .error "SKILL ISSUE: Dictionary keys must be strings."
    | _ => .error "stack underflow (unreachable)"

/-- The `OP_DICT` case of `run` (vm.c lines 898-912): pop `n` key/value pairs
(value first), then push a reference to the freshly built dict. -/
def opDict (elementCount : Nat) (st : VMSt) : Except String VMSt :=
  match dictPairsLoop elementCount [] st.stack.reverse with
  | .error e => .error e
  | .ok (items, rev) =>
    .ok { st with
      stack := rev.reverse ++ [Value.dictRef st.heap.dicts.length],
      heap := { st.heap with dicts := st.heap.dicts ++ [items] } }

/-- The `OP_SET_PROPERTY` case of `run` (vm.c lines 580-598): with the target
one below the top, write the top value under the given name into an
instance's field table (or a dict), pop both and push the assigned value
back. -/
def opSetProperty (name : String) (st : VMSt) : Except String VMSt :=
  match st.stack.reverse with
  | value :: Value.instanceRef r :: rest =>
    (match st.heap.instances[r]? with
     | some inst =>
       .ok { st with
         stack := rest.reverse ++ [value],
         heap := { st.heap with
           instances := st.heap.instances.set r
             ⟨inst.klass, tableSet inst.fields name value⟩ } }
     | none => .error "dangling instance reference (unreachable)")
  | value :: Value.dictRef r :: rest =>
    (match st.heap.dicts[r]? with
     | some items =>
       .ok { st with
         stack := rest.reverse ++ [value],
         heap := { st.heap with
           dicts := st.heap.dicts.set r (writeDict items name value) } }
     | none => .error "dangling dict reference (unreachable)")
  | _ :: _ :: _ =>
    .error "SKILL ISSUE: Only instances and dictionaries have fields."
  | _ => .error "stack underflow (unreachable)"

/-- Outcome of the `OP_OBJECT_SET` handler. `ub` is the guarded
embedding's branch for the unchecked out-of-bounds element write of vm.c line
874 (C undefined behaviour). -/
inductive ObjectSetOutcome where
  | ok (st : VMSt)
  | err (msg : String)
  | ub
deriving DecidableEq, Repr

/-- The `OP_OBJECT_SET` case of `run` (vm.c lines 865-897): with
`[..., target, index, value]` on top of the stack, an array target checks
only that the index is a number and then writes unconditionally at the
truncated integer index (out of bounds is undefined behaviour, `undef`
here); a dict target requires a string key; both pop all three and push
nil. -/
def opObjectSet (st : VMSt) : ObjectSetOutcome :=
  match st.stack.reverse with
  | value :: Value.vnum q :: Value.arrayRef r :: rest =>
    (match st.heap.arrays[r]? with
     | some elems =>
       if 0 ≤ truncQ q ∧ (truncQ q).toNat < elems.length then
         .ok { st with
           stack := rest.reverse ++ [Value.vnil],
           heap := { st.heap with
             arrays := st.heap.arrays.set r
               (elems.set (truncQ q).toNat value) } }
       else .ub
     | none => .ub)
  | _ :: idx :: Value.arrayRef _ :: _ =>
    (match idx with
     | Value.vnum _ => .ub
     | _ => .err "SKILL ISSUE: Array access requires a number.")
  | value :: Value.vstr k :: Value.dictRef r :: rest =>
    (match st.heap.dicts[r]? with
     | some items =>
       .ok { st with
         stack := rest.reverse ++ [Value.vnil],
         heap := { st.heap with
           dicts := st.heap.dicts.set r (writeDict items k value) } }
     | none => .ub)
  | _ :: key :: Value.dictRef _ :: _ =>
    (match key with
     | Value.vstr _ => .ub
     | _ => .err "SKILL ISSUE: Dictionary keys must be strings.")
  | _ :: _ :: _ :: _ =>
    .err "SKILL ISSUE: Only arrays and dictionaries support set operations."
  | _ => .ub

/-- The push order of a dict literal (compiler.c `dictLiteral`, lines
560-572): for each pair, the key expression is compiled (pushed) first, then
the value, pairs in source order. -/
def dictLiteralPush : List (String × Value) → List Value
  | [] => []
  | p :: ps => Value.vstr p.1 :: p.2 :: dictLiteralPush ps

/-- The stream of stack values `OP_DICT` pops (top of stack first) for the
pair list `qs`: each pair contributes its value and then its key. -/
def popStream : List (String × Value) → List Value
  | [] => []
  | p :: ps => p.2 :: Value.vstr p.1 :: popStream ps

/-- The dict contents produced by `OP_DICT` for a literal with pairs `ps` in
source order: the pairs are popped from the top, i.e. processed in reversed
source order, each stored with `writeDict`. -/
def dictItemsOf (ps : List (String × Value)) : List (String × Value) :=
  ps.reverse.foldl (fun acc p => writeDict acc p.1 p.2) []

/-! ### Compiler model (claims C2 and C8)

Opcode numbering: chunk.h is not under src/. Modelled from the spec: the
numbering follows the order of the instruction-set listing in the spec
(section 4.3), a C enum starting at 0. Only `OP_CONSTANT = 0` and the
distinctness of the named opcodes matter for the claims. -/

def OP_CONSTANT : Nat := 0
def OP_CONSTANT_LONG : Nat := 1
def OP_NIL : Nat := 2
def OP_TRUE : Nat := 3
def OP_FALSE : Nat := 4
def OP_POP : Nat := 5
def OP_GET_LOCAL : Nat := 6
def OP_SET_LOCAL : Nat := 7
def OP_GET_GLOBAL : Nat := 8
def OP_DEFINE_GLOBAL : Nat := 9
def OP_SET_GLOBAL : Nat := 10
def OP_GET_UPVALUE : Nat := 11
def OP_SET_UPVALUE : Nat := 12
def OP_CLOSE_UPVALUE : Nat := 13
def OP_GET_PROPERTY : Nat := 14
def OP_SET_PROPERTY : Nat := 15
def OP_GET_SUPER : Nat := 16
def OP_EQUAL : Nat := 17
def OP_GREATER : Nat := 18
def OP_LESS : Nat := 19
def OP_ADD : Nat := 20
def OP_SUBTRACT : Nat := 21
def OP_MULTIPLY : Nat := 22
def OP_DIVIDE : Nat := 23
def OP_MODULO : Nat := 24
def OP_NEGATE : Nat := 25
def OP_NOT : Nat := 26
def OP_BITWISE_AND : Nat := 27
def OP_BITWISE_OR : Nat := 28
def OP_BITWISE_XOR : Nat := 29
def OP_BITWISE_LS : Nat := 30
def OP_BITWISE_RS : Nat := 31
def OP_BITWISE_NOT : Nat := 32
def OP_JUMP : Nat := 33
def OP_JUMP_IF_FALSE : Nat := 34
def OP_LOOP : Nat := 35
def OP_CALL : Nat := 36
def OP_INVOKE : Nat := 37
def OP_SUPER_INVOKE : Nat := 38
def OP_RETURN : Nat := 39
def OP_CLOSURE : Nat := 40
def OP_CLASS : Nat := 41
def OP_INHERIT : Nat := 42
def OP_METHOD : Nat := 43
def OP_ARRAY : Nat := 44
def OP_DICT : Nat := 45
def OP_OBJECT_GET : Nat := 46
def OP_OBJECT_SET : Nat := 47
def OP_OUT : Nat := 48

/-- A per-function chunk: bytecode and constant pool (the line table is
owned by the external chunk module and not needed by any claim). -/
structure Chunk where
  code : List Nat
  constants : List Value
deriving DecidableEq, Repr

/-- Modelled from the spec: `addConstant` of the chunk module (chunk.c is not
under src/): append to the constant pool and return the new index. -/
def addConstant (c : Chunk) (v : Value) : Chunk × Nat :=
  ({ c with constants := c.constants ++ [v] }, c.constants.length)

/-- Modelled from the spec: `writeConstant` of the chunk module (chunk.c is
not under src/): add the constant, then emit `OP_CONSTANT` with a one-byte
index for pool indices below 256, else `OP_CONSTANT_LONG` with a two-byte
index. This is what `emitConstant` in compiler.c calls. -/
def writeConstant (c : Chunk) (v : Value) : Chunk :=
  let ci := addConstant c v
  if ci.2 < 256 then
    { ci.1 with code := ci.1.code ++ [OP_CONSTANT, ci.2] }
  else
    { ci.1 with code := ci.1.code ++ [OP_CONSTANT_LONG, ci.2 / 256, ci.2 % 256] }

/-- The last-opcode return-type check of `returnStatement` (compiler.c lines
1002-1032), run after the return expression has been compiled: it reads
`chunk.code[chunk.count - 1]` — the final BYTE of the chunk, which for an
instruction with operands is the last operand byte, not the opcode — and
compares it against the permitted opcode set of the declared return type.
Returns the error message raised, if any. -/
def returnStatementTypeCheck (c : Chunk) (rt : FunctionReturnType) :
    Option String :=
  let lastOpcode := c.code.getLastD 0
  match rt with
  | .TYPE_INT | .TYPE_FLOAT =>
    if lastOpcode ≠ OP_CONSTANT ∧ lastOpcode ≠ OP_ADD
        ∧ lastOpcode ≠ OP_SUBTRACT ∧ lastOpcode ≠ OP_MULTIPLY
        ∧ lastOpcode ≠ OP_DIVIDE ∧ lastOpcode ≠ OP_NEGATE then
      some "Function must return a number."
    else none
  | .TYPE_STRING =>
    if lastOpcode ≠ OP_CONSTANT then
      some "Function must return a string."
    else none
  | .TYPE_BOOL =>
    if lastOpcode ≠ OP_TRUE ∧ lastOpcode ≠ OP_FALSE
        ∧ lastOpcode ≠ OP_EQUAL ∧ lastOpcode ≠ OP_GREATER
        ∧ lastOpcode ≠ OP_LESS ∧ lastOpcode ≠ OP_NOT then
      some "Function must return a boolean."
    else none
  | .TYPE_VOID => none
  | .TYPE_NONE => none

/-- The chunk of `fn f() @int { return "x"; }` at the moment
`returnStatement` runs its type check: the body's only emission so far is
the string constant `"x"` (compiler.c `string`, via `emitConstant`), placed
at constant-pool index 0 of the fresh function chunk. -/
def fReturnExprChunk : Chunk :=
  writeConstant { code := [], constants := [] } (Value.vstr "x")

/-- `emitByte` (compiler.c line 142), code bytes only. -/
def emitByteC (code : List Nat) (b : Nat) : List Nat :=
  code ++ [b]

/-- `emitJump` (compiler.c lines 161-166): emit the instruction and two
placeholder bytes; return the new code and the offset of the placeholder. -/
def emitJumpC (code : List Nat) (instruction : Nat) : List Nat × Nat :=
  (code ++ [instruction, 255, 255], code.length + 1)

/-- `emitLoop` (compiler.c lines 151-159): emit `OP_LOOP` and a two-byte
backward offset to `loopStart` (the source masks the bytes with 0xff; the
over-long-loop diagnostic does not change the emitted bytes). -/
def emitLoopC (code : List Nat) (loopStart : Nat) : List Nat :=
  let code1 := code ++ [OP_LOOP]
  let offset := code1.length - loopStart + 2
  code1 ++ [offset / 256 % 256, offset % 256]

/-- `patchJump` (compiler.c lines 192-202): write the forward distance from
the placeholder to the current end into the two placeholder bytes. -/
def patchJumpC (code : List Nat) (offset : Nat) : List Nat :=
  let jump := code.length - offset - 2
  (code.set offset (jump / 256 % 256)).set (offset + 1) (jump % 256)

/-- `whileStatement` (compiler.c lines 1038-1051), abstracted over the
already-compiled condition and body bytecode: condition, exit jump, pop,
body, loop back, patch, pop. -/
def whileStatementCode (code0 : List Nat) (cond body : List Nat) : List Nat :=
  let loopStart := code0.length
  let code1 := code0 ++ cond
  let j := emitJumpC code1 OP_JUMP_IF_FALSE
  let code3 := emitByteC j.1 OP_POP
  let code4 := code3 ++ body
  let code5 := emitLoopC code4 loopStart
  let code6 := patchJumpC code5 j.2
  emitByteC code6 OP_POP

/-- `untilStatement` (compiler.c lines 1053-1068): identical to
`whileStatement` except that one `OP_NOT` is emitted right after the
condition. -/
def untilStatementCode (code0 : List Nat) (cond body : List Nat) : List Nat :=
  let loopStart := code0.length
  let code1 := code0 ++ cond
  let code1n := emitByteC code1 OP_NOT
  let j := emitJumpC code1n OP_JUMP_IF_FALSE
  let code3 := emitByteC j.1 OP_POP
  let code4 := code3 ++ body
  let code5 := emitLoopC code4 loopStart
  let code6 := patchJumpC code5 j.2
  emitByteC code6 OP_POP

/-! ### Helper lemmas -/

theorem getD_append_length {α : Type} (bs : List α) (c : α) (args : List α)
    (d : α) : (bs ++ c :: args).getD bs.length d = c := by
  induction bs with
  | nil => rfl
  | cons b bs ih => simpa [List.getD] using ih

theorem set_append_length {α : Type} (bs : List α) (c x : α)
    (args : List α) : (bs ++ c :: args).set bs.length x = bs ++ x :: args := by
  induction bs with
  | nil => rfl
  | cons b bs ih =>
    simp only [List.cons_append, List.length_cons, List.set_cons_succ]
    rw [ih]

theorem getElem?_set_ne {α : Type} (l : List α) (i j : Nat) (a : α)
    (h : i ≠ j) : (l.set i a)[j]? = l[j]? := by
  induction l generalizing i j with
  | nil => simp
  | cons b l ih =>
    cases i with
    | zero =>
      cases j with
      | zero => exact absurd rfl h
      | succ j => simp [List.set]
    | succ i =>
      cases j with
      | zero => simp [List.set]
      | succ j => simpa [List.set] using ih i j (by omega)

theorem tableGet_tableSet_self {α : Type} (t : List (String × α)) (k : String)
    (v : α) : tableGet (tableSet t k v) k = some v := by
  induction t with
  | nil => simp [tableSet, tableGet]
  | cons e rest ih =>
    by_cases h : e.1 = k
    · simp [tableSet, tableGet, h]
    · simp [tableSet, tableGet, h, ih]

theorem tableGet_tableSet_ne {α : Type} (t : List (String × α))
    (k k2 : String) (v : α) (h : k2 ≠ k) :
    tableGet (tableSet t k v) k2 = tableGet t k2 := by
  have hk2 : ¬ (k = k2) := fun he => h he.symm
  induction t with
  | nil =>
    simp only [tableSet, tableGet]
    rw [if_neg hk2]
  | cons e rest ih =>
    by_cases he : e.1 = k
    · simp only [tableSet, if_pos he, tableGet]
      rw [if_neg hk2, if_neg (he ▸ hk2)]
    · simp only [tableSet, if_neg he, tableGet]
      by_cases h2 : e.1 = k2
      · rw [if_pos h2, if_pos h2]
      · rw [if_neg h2, if_neg h2, ih]

theorem mem_captureUpvalue (x : Nat) :
    ∀ (l : List Nat) (z : Nat), z ∈ captureUpvalue l x → z ∈ l ∨ z = x := by
  intro l
  induction l with
  | nil =>
    intro z hz
    simp only [captureUpvalue, List.mem_singleton] at hz
    exact Or.inr hz
  | cons u rest ih =>
    intro z hz
    by_cases h1 : x < u
    · simp only [captureUpvalue, if_pos h1, List.mem_cons] at hz
      rcases hz with hz | hz
      · exact Or.inl (by simp [hz])
      · rcases ih z hz with h2 | h2
        · exact Or.inl (by simp [h2])
        · exact Or.inr h2
    · by_cases h2 : u = x
      · simp only [captureUpvalue, if_neg h1, if_pos h2] at hz
        exact Or.inl hz
      · simp only [captureUpvalue, if_neg h1, if_neg h2, List.mem_cons] at hz
        rcases hz with hz | hz
        · exact Or.inr hz
        · exact Or.inl (List.mem_cons.mpr hz)

theorem captureUpvalue_sorted (x : Nat) :
    ∀ (l : List Nat), List.Pairwise (· > ·) l →
      List.Pairwise (· > ·) (captureUpvalue l x) := by
  intro l
  induction l with
  | nil => intro _; simp [captureUpvalue]
  | cons u rest ih =>
    intro h
    rcases List.pairwise_cons.mp h with ⟨hu, hrest⟩
    by_cases h1 : x < u
    · simp only [captureUpvalue, if_pos h1]
      refine List.pairwise_cons.mpr ⟨?_, ih hrest⟩
      intro z hz
      rcases mem_captureUpvalue x rest z hz with h2 | h2
      · exact hu z h2
      · omega
    · by_cases h2 : u = x
      · simpa only [captureUpvalue, if_neg h1, if_pos h2] using h
      · simp only [captureUpvalue, if_neg h1, if_neg h2]
        refine List.pairwise_cons.mpr ⟨?_, h⟩
        intro z hz
        rcases List.mem_cons.mp hz with hz | hz
        · omega
        · have := hu z hz
          omega

theorem mem_captureUpvalue_self (l : List Nat) (x : Nat) :
    x ∈ captureUpvalue l x := by
  induction l with
  | nil => simp [captureUpvalue]
  | cons u rest ih =>
    by_cases h1 : x < u
    · simp only [captureUpvalue, if_pos h1, List.mem_cons]
      exact Or.inr ih
    · by_cases h2 : u = x
      · simp [captureUpvalue, if_neg h1, if_pos h2, h2]
      · simp [captureUpvalue, if_neg h1, if_neg h2]

theorem captureUpvalue_of_mem (x : Nat) :
    ∀ (l : List Nat), List.Pairwise (· > ·) l → x ∈ l →
      captureUpvalue l x = l := by
  intro l
  induction l with
  | nil => intro _ hx; simp at hx
  | cons u rest ih =>
    intro h hx
    rcases List.pairwise_cons.mp h with ⟨hu, hrest⟩
    by_cases h1 : x < u
    · have hxr : x ∈ rest := by
        rcases List.mem_cons.mp hx with hx | hx
        · omega
        · exact hx
      simp [captureUpvalue, if_pos h1, ih hrest hxr]
    · by_cases h2 : u = x
      · simp [captureUpvalue, if_neg h1, if_pos h2]
      · exfalso
        rcases List.mem_cons.mp hx with hx | hx
        · exact h2 hx.symm
        · have := hu x hx
          omega

theorem closeUpvalues_suffix (l : List Nat) (y : Nat) :
    closeUpvalues l y <:+ l := by
  induction l with
  | nil => simp [closeUpvalues]
  | cons u rest ih =>
    by_cases h : y ≤ u
    · simp only [closeUpvalues, if_pos h]
      exact ih.trans (List.suffix_cons u rest)
    · simp only [closeUpvalues, if_neg h]
      exact List.suffix_refl _

theorem closeUpvalues_sorted (l : List Nat) (y : Nat)
    (h : List.Pairwise (· > ·) l) :
    List.Pairwise (· > ·) (closeUpvalues l y) :=
  h.sublist (closeUpvalues_suffix l y).sublist

theorem findq_append {β : Type} (l1 l2 : List β) (p : β → Bool) :
    (l1 ++ l2).find? p = match l1.find? p with
      | some x => some x
      | none => l2.find? p := by
  induction l1 with
  | nil => rfl
  | cons a l1 ih =>
    by_cases h : p a
    · simp [List.find?_cons_of_pos, h]
    · simp only [List.cons_append, List.find?_cons_of_neg _ h, ih]

theorem popStream_append (qs : List (String × Value)) (p : String × Value) :
    popStream (qs ++ [p]) = popStream qs ++ [p.2, Value.vstr p.1] := by
  induction qs with
  | nil => rfl
  | cons q qs ih => simp [popStream, ih]

theorem reverse_dictLiteralPush (ps : List (String × Value)) :
    (dictLiteralPush ps).reverse = popStream ps.reverse := by
  induction ps with
  | nil => rfl
  | cons p ps ih =>
    have h1 : (p :: ps).reverse = ps.reverse ++ [p] := by simp
    rw [h1, popStream_append, ← ih]
    simp [dictLiteralPush]

theorem dictPairsLoop_popStream (qs : List (String × Value))
    (acc : List (String × Value)) (rest : List Value) :
    dictPairsLoop qs.length acc (popStream qs ++ rest)
      = .ok (qs.foldl (fun a p => writeDict a p.1 p.2) acc, rest) := by
  induction qs generalizing acc with
  | nil => rfl
  | cons p qs ih =>
    simp only [popStream, List.length_cons, List.cons_append,
      dictPairsLoop, List.foldl_cons]
    exact ih (writeDict acc p.1 p.2)

theorem tableGet_foldl_writeDict (k : String) :
    ∀ (qs : List (String × Value)) (acc : List (String × Value)),
    tableGet (qs.foldl (fun a p => writeDict a p.1 p.2) acc) k
      = match qs.reverse.find? (fun p => p.1 == k) with
        | some p => some p.2
        | none => tableGet acc k := by
  intro qs
  induction qs with
  | nil => intro acc; rfl
  | cons p qs ih =>
    intro acc
    simp only [List.foldl_cons]
    rw [ih]
    have hrev : (p :: qs).reverse = qs.reverse ++ [p] := by simp
    rw [hrev, findq_append]
    cases hfind : qs.reverse.find? (fun p => p.1 == k) with
    | some q => rfl
    | none =>
      by_cases hk : p.1 = k
      · simp only [List.find?_singleton, hk]
        simp [writeDict, hk ▸ tableGet_tableSet_self acc p.1 p.2]
      · simp only [List.find?_singleton]
        rw [if_neg (by simpa using hk)]
        exact tableGet_tableSet_ne acc p.1 k p.2 (fun he => hk he.symm)

theorem tableGet_dictItemsOf (ps : List (String × Value)) (k : String) :
    tableGet (dictItemsOf ps) k
      = (ps.find? (fun p => p.1 == k)).map Prod.snd := by
  unfold dictItemsOf
  rw [tableGet_foldl_writeDict, List.reverse_reverse]
  cases h : ps.find? (fun p => p.1 == k) <;> simp [tableGet]

/-- `checkReturnType` agrees with the spec's wording of the dynamic
return-type check. -/
theorem checkReturnType_iff_spec (f : ObjFunction) (v : Value) :
    checkReturnType f v = true ↔ specReturnTypeMatches f.returnType v := by
  cases h : f.returnType <;> cases v <;>
    simp [checkReturnType, specReturnTypeMatches, h, isNilV, isNumberV,
      isStringV, isBoolV]

/-! ### Claim theorems -/

/-- Claim C8: for every condition bytecode and body bytecode, the code
emitted by `untilStatement` is exactly the code `whileStatement` emits for
the condition followed by one `OP_NOT` — i.e. `until (c) s` compiles to the
same bytecode as `while` with the condition logically inverted, and is
behaviourally equivalent to `while (!c) s`. -/
theorem claim8_until_is_while_of_not (code0 cond body : List Nat) :
    untilStatementCode code0 cond body
      = whileStatementCode code0 (cond ++ [OP_NOT]) body := by
  unfold untilStatementCode whileStatementCode emitByteC emitJumpC emitLoopC
    patchJumpC
  simp [List.append_assoc]

/-- Claim C2 (counterexample): compiling `fn f() @int { return "x"; }` does
NOT produce the compile error "Function must return a number.": at the check
point the function chunk holds `[OP_CONSTANT, 0]`, the inspected final byte
is the constant-pool operand 0, which coincides with the OP_CONSTANT opcode,
and OP_CONSTANT is in the permitted set for numeric return types. -/
theorem claim2_counterexample :
    returnStatementTypeCheck fReturnExprChunk FunctionReturnType.TYPE_INT
      = none := by
  rfl

/-- Claim C2 (amended): compiling `fn f() @int { return "x"; }` raises no
compile error from the return-type check — the body compiles to
`OP_CONSTANT 0` and the last chunk byte (the operand 0, numerically equal to
OP_CONSTANT, which is permitted for numeric returns anyway) passes the check
— and the mismatch is caught only by the VM's dynamic `checkReturnType` at
OP_RETURN. -/
theorem claim2_amended_no_static_error :
    returnStatementTypeCheck fReturnExprChunk FunctionReturnType.TYPE_INT
        = none
    ∧ fReturnExprChunk.code = [OP_CONSTANT, 0]
    ∧ checkReturnType ⟨0, 0, FunctionReturnType.TYPE_INT, some "f"⟩
        (Value.vstr "x") = false :=
  ⟨rfl, rfl, rfl⟩

/-- Claim C7: on a strictly descending open-upvalue list, `captureUpvalue`
keeps the list strictly descending and duplicate-free, contains the
requested slot, and returns the list unchanged when the slot is already
present; `closeUpvalues` removes only a prefix and preserves the order
invariant. -/
theorem claim7_open_upvalue_invariant (l : List Nat) (x y : Nat)
    (h : List.Pairwise (· > ·) l) :
    List.Pairwise (· > ·) (captureUpvalue l x)
    ∧ x ∈ captureUpvalue l x
    ∧ (captureUpvalue l x).Nodup
    ∧ (x ∈ l → captureUpvalue l x = l)
    ∧ List.Pairwise (· > ·) (closeUpvalues l y)
    ∧ closeUpvalues l y <:+ l := by
  refine ⟨captureUpvalue_sorted x l h, mem_captureUpvalue_self l x, ?_,
    fun hx => captureUpvalue_of_mem x l h hx,
    closeUpvalues_sorted l y h, closeUpvalues_suffix l y⟩
  exact (captureUpvalue_sorted x l h).imp (fun hab => Nat.ne_of_gt hab)

/-- Claim C7 witness: the invariant theorem applied to the concrete open
list [5, 3, 1], capturing slot 4 (a fresh slot) and slot 3 (already open),
and closing at boundary 3. -/
theorem claim7_witness :
    List.Pairwise (· > ·) (captureUpvalue [5, 3, 1] 4)
    ∧ (4 : Nat) ∈ captureUpvalue [5, 3, 1] 4
    ∧ (captureUpvalue [5, 3, 1] 4).Nodup
    ∧ captureUpvalue [5, 3, 1] 3 = [5, 3, 1]
    ∧ List.Pairwise (· > ·) (closeUpvalues [5, 3, 1] 3)
    ∧ closeUpvalues [5, 3, 1] 3 <:+ [5, 3, 1] := by
  have h4 := claim7_open_upvalue_invariant [5, 3, 1] 4 3 (by decide)
  have h3 := claim7_open_upvalue_invariant [5, 3, 1] 3 3 (by decide)
  exact ⟨h4.1, h4.2.1, h4.2.2.1, h3.2.2.2.1 (by decide), h4.2.2.2.2.1,
    h4.2.2.2.2.2⟩

/-- Claim C4: executing `OP_ARRAY n` on a stack whose top `n` values are
`elems` (deepest slot = `elems[0]`, i.e. source order) allocates a fresh
array whose elements are exactly `elems` in source order, pops all `n`
values and pushes the single reference to the new array. -/
theorem claim4_op_array (base elems : List Value) (fr : List Frame)
    (ou : List Nat) (H : Heap) :
    opArray elems.length ⟨base ++ elems, fr, ou, H⟩
      = ⟨base ++ [Value.arrayRef H.arrays.length], fr, ou,
          ⟨H.arrays ++ [elems], H.dicts, H.instances⟩⟩ := by
  have hrev : (base ++ elems).reverse = elems.reverse ++ base.reverse := by
    simp
  have helems : (List.range elems.length).map
      (fun i => ((base ++ elems).reverse).getD (elems.length - i - 1)
        Value.vnil) = elems := by
    apply List.ext_getElem
    · simp
    · intro i h1 h2
      have hi : i < elems.length := by simpa using h2
      simp only [List.getElem_map, List.getElem_range]
      rw [hrev]
      have hlt : elems.length - i - 1 < elems.reverse.length := by
        simp only [List.length_reverse]; omega
      have hlt2 : elems.length - i - 1
          < (elems.reverse ++ base.reverse).length := by
        simp only [List.length_append, List.length_reverse]; omega
      rw [List.getD_eq_getElem _ _ hlt2]
      rw [List.getElem_append_left hlt]
      rw [List.getElem_reverse]
      congr 1
      omega
  have hdrop : (((base ++ elems).reverse).drop elems.length).reverse
      = base := by
    rw [hrev]
    rw [show elems.length = elems.reverse.length from (List.length_reverse elems).symm]
    rw [List.drop_left]
    simp
  unfold opArray
  dsimp only
  rw [helems, hdrop]

/-- Claim C1: when `OP_RETURN` pops a frame that is not the outermost one and
the returning function declared a non-NONE return type, a result that does
not match the declared type (in the spec's sense: VOID needs nil, INT/FLOAT a
number, STRING a string, BOOL a boolean) is a runtime error; a matching
result shrinks the stack to the returning frame's base and is pushed there. -/
theorem claim1_return_type_check (bs : List Value) (result : Value)
    (f g : Frame) (rest : List Frame) (ou : List Nat) (H : Heap) :
    (f.closure.function.returnType ≠ FunctionReturnType.TYPE_NONE →
      ¬ specReturnTypeMatches f.closure.function.returnType result →
      opReturn ⟨bs ++ [result], f :: g :: rest, ou, H⟩
        = .err "SKILL ISSUE: Invalid return type.")
    ∧ (specReturnTypeMatches f.closure.function.returnType result →
      opReturn ⟨bs ++ [result], f :: g :: rest, ou, H⟩
        = .next ⟨bs.take f.slots ++ [result], g :: rest,
            closeUpvalues ou f.slots, H⟩) := by
  constructor
  · intro hne hnm
    have hc : checkReturnType f.closure.function result = false := by
      cases hcc : checkReturnType f.closure.function result
      · rfl
      · exact absurd ((checkReturnType_iff_spec _ _).mp hcc) hnm
    simp only [opReturn, List.getLast?_concat, List.dropLast_concat]
    rw [if_pos ⟨hne, hc⟩]
  · intro hm
    have hc : checkReturnType f.closure.function result = true :=
      (checkReturnType_iff_spec _ _).mpr hm
    simp only [opReturn, List.getLast?_concat, List.dropLast_concat]
    rw [if_neg (by simp [hc])]

/-- Claim C1 witness: a function declared `@int` returning the number 3 from
an inner frame with base 0; the frame is popped, the stack shrinks to the
base and the result is pushed. -/
theorem claim1_witness :
    opReturn
      ⟨[Value.vclosure ⟨⟨0, 0, FunctionReturnType.TYPE_INT, some "f"⟩⟩,
          Value.vnum 3],
        [⟨⟨⟨0, 0, FunctionReturnType.TYPE_INT, some "f"⟩⟩, 0, 0⟩,
          ⟨⟨⟨0, 0, FunctionReturnType.TYPE_NONE, none⟩⟩, 0, 0⟩],
        [], ⟨[], [], []⟩⟩
      = .next ⟨[Value.vnum 3],
          [⟨⟨⟨0, 0, FunctionReturnType.TYPE_NONE, none⟩⟩, 0, 0⟩],
          [], ⟨[], [], []⟩⟩ :=
  (claim1_return_type_check
      [Value.vclosure ⟨⟨0, 0, FunctionReturnType.TYPE_INT, some "f"⟩⟩]
      (Value.vnum 3)
      ⟨⟨⟨0, 0, FunctionReturnType.TYPE_INT, some "f"⟩⟩, 0, 0⟩
      ⟨⟨⟨0, 0, FunctionReturnType.TYPE_NONE, none⟩⟩, 0, 0⟩
      [] [] ⟨[], [], []⟩).2 ⟨3, rfl⟩

/-- Claim C6: `OP_SET_PROPERTY s` with an instance one below the top writes
the top value under `s` into that instance's fields, leaves every other
field and every other instance unchanged, pops the instance and leaves the
assigned value on top of the stack. -/
theorem claim6_set_property (bs : List Value) (v : Value) (r : Nat)
    (inst : Instance) (s : String) (fr : List Frame) (ou : List Nat)
    (H : Heap) (hr : H.instances[r]? = some inst) :
    opSetProperty s ⟨bs ++ [Value.instanceRef r, v], fr, ou, H⟩
      = .ok ⟨bs ++ [v], fr, ou,
          ⟨H.arrays, H.dicts,
            H.instances.set r ⟨inst.klass, tableSet inst.fields s v⟩⟩⟩
    ∧ tableGet (tableSet inst.fields s v) s = some v
    ∧ (∀ s2, s2 ≠ s → tableGet (tableSet inst.fields s v) s2
        = tableGet inst.fields s2)
    ∧ (∀ r2, r2 ≠ r →
        (H.instances.set r ⟨inst.klass, tableSet inst.fields s v⟩)[r2]?
          = H.instances[r2]?) := by
  refine ⟨?_, tableGet_tableSet_self _ _ _,
    fun s2 h2 => tableGet_tableSet_ne _ _ _ _ h2,
    fun r2 h2 => getElem?_set_ne _ _ _ _ (fun he => h2 he.symm)⟩
  simp [opSetProperty, hr]

/-- Claim C6 witness: writing field "y" with value 2 on the only instance on
the heap, which already holds field "x". -/
theorem claim6_witness :
    opSetProperty "y"
      ⟨[Value.instanceRef 0, Value.vnum 2], [], [],
        ⟨[], [], [⟨⟨"A", []⟩, [("x", Value.vnum 1)]⟩]⟩⟩
      = .ok ⟨[Value.vnum 2], [], [],
          ⟨[], [], [⟨⟨"A", []⟩, [("x", Value.vnum 1), ("y", Value.vnum 2)]⟩]⟩⟩
    ∧ tableGet
        (tableSet [("x", Value.vnum 1)] "y" (Value.vnum 2)) "y"
        = some (Value.vnum 2) := by
  have h := claim6_set_property [] (Value.vnum 2) 0
    ⟨⟨"A", []⟩, [("x", Value.vnum 1)]⟩ "y" [] []
    ⟨[], [], [⟨⟨"A", []⟩, [("x", Value.vnum 1)]⟩]⟩ rfl
  exact ⟨h.1, h.2.1⟩

/-- Claim C9: calling `head()`, `tail()` or `rest()` with a single argument
that is an empty array reports a runtime error, returns nil, and leaves the
heap — in particular the argument array, which stays empty — unchanged. -/
theorem claim9_empty_array_natives (r : Nat) (H : Heap)
    (h : H.arrays[r]? = some []) :
    arrayHead 1 [Value.arrayRef r] H = (true, Value.vnil, H)
    ∧ arrayTail 1 [Value.arrayRef r] H = (true, Value.vnil, H)
    ∧ arrayRest 1 [Value.arrayRef r] H = (true, Value.vnil, H) := by
  refine ⟨?_, ?_, ?_⟩ <;> simp [arrayHead, arrayTail, arrayRest, h]

/-- Claim C9 witness: the three natives applied to a concrete heap whose
only array is empty. -/
theorem claim9_witness :
    arrayHead 1 [Value.arrayRef 0] ⟨[[]], [], []⟩
        = (true, Value.vnil, ⟨[[]], [], []⟩)
    ∧ arrayTail 1 [Value.arrayRef 0] ⟨[[]], [], []⟩
        = (true, Value.vnil, ⟨[[]], [], []⟩)
    ∧ arrayRest 1 [Value.arrayRef 0] ⟨[[]], [], []⟩
        = (true, Value.vnil, ⟨[[]], [], []⟩) :=
  claim9_empty_array_natives 0 ⟨[[]], [], []⟩ rfl

/-- Claim C10: `OP_OBJECT_SET` on an array checks only that the index is a
number: a non-number index is a runtime error regardless of bounds, an
in-bounds truncated integer index performs the element write and pops the
three operands pushing nil, and an out-of-bounds truncated index reaches the
unguarded element write (the guarded embedding's `undef` branch), so the
operation is safe only under `0 ≤ i < element count`. -/
theorem claim10_object_set_array (bs : List Value) (r : Nat) (q : ℚ)
    (v : Value) (elems : List Value) (fr : List Frame) (ou : List Nat)
    (H : Heap) (hr : H.arrays[r]? = some elems) :
    ((0 ≤ truncQ q ∧ (truncQ q).toNat < elems.length) →
      opObjectSet ⟨bs ++ [Value.arrayRef r, Value.vnum q, v], fr, ou, H⟩
        = .ok ⟨bs ++ [Value.vnil], fr, ou,
            ⟨H.arrays.set r (elems.set (truncQ q).toNat v), H.dicts,
              H.instances⟩⟩)
    ∧ (¬ (0 ≤ truncQ q ∧ (truncQ q).toNat < elems.length) →
      opObjectSet ⟨bs ++ [Value.arrayRef r, Value.vnum q, v], fr, ou, H⟩
        = .ub)
    ∧ (∀ w, isNumberV w = false →
      opObjectSet ⟨bs ++ [Value.arrayRef r, w, v], fr, ou, H⟩
        = .err "SKILL ISSUE: Array access requires a number.") := by
  refine ⟨?_, ?_, ?_⟩
  · intro hin
    simp [opObjectSet, hr, hin]
  · intro hout
    simp [opObjectSet, hr, hout]
  · intro w hw
    cases w <;> simp [isNumberV] at hw <;> simp [opObjectSet]

/-- Claim C10 witness: on the one-element array `[nil]`, writing `a[0] = 5`
succeeds (popping the three operands and pushing nil), writing `a[2] = 5`
reaches the unguarded out-of-bounds write, and `a["i"] = 5` is the
index-type runtime error. -/
theorem claim10_witness :
    opObjectSet ⟨[Value.arrayRef 0, Value.vnum 0, Value.vnum 5], [], [],
        ⟨[[Value.vnil]], [], []⟩⟩
      = .ok ⟨[Value.vnil], [], [], ⟨[[Value.vnum 5]], [], []⟩⟩
    ∧ opObjectSet ⟨[Value.arrayRef 0, Value.vnum 2, Value.vnum 5], [], [],
        ⟨[[Value.vnil]], [], []⟩⟩
      = .ub
    ∧ opObjectSet ⟨[Value.arrayRef 0, Value.vstr "i", Value.vnum 5], [], [],
        ⟨[[Value.vnil]], [], []⟩⟩
      = .err "SKILL ISSUE: Array access requires a number." := by
  have h0 := claim10_object_set_array [] 0 0 (Value.vnum 5) [Value.vnil]
    [] [] ⟨[[Value.vnil]], [], []⟩ rfl
  have h2 := claim10_object_set_array [] 0 2 (Value.vnum 5) [Value.vnil]
    [] [] ⟨[[Value.vnil]], [], []⟩ rfl
  exact ⟨h0.1 (by decide), h2.2.1 (by decide), h0.2.2 (Value.vstr "i") rfl⟩

/-- Claim C5 (counterexample): executing `OP_DICT 2` for the literal
`{"k": 1, "k": 2}` (stack pushed in source order: key 1 value 1 key 2
value 2) yields a dict mapping "k" to 1 — the EARLIER occurrence — not to
the later occurrence 2, because the pairs are popped from the top (last pair
first) and `writeDict` lets the pair processed last, the earliest one, win. -/
theorem claim5_counterexample :
    opDict 2 ⟨[Value.vstr "k", Value.vnum 1, Value.vstr "k", Value.vnum 2],
        [], [], ⟨[], [], []⟩⟩
      = .ok ⟨[Value.dictRef 0], [], [], ⟨[], [[("k", Value.vnum 1)]], []⟩⟩
    ∧ tableGet [("k", Value.vnum 1)] "k" = some (Value.vnum 1)
    ∧ Value.vnum 1 ≠ Value.vnum 2 :=
  ⟨rfl, rfl, by decide⟩

/-- Claim C5 (amended): `OP_DICT n` pops `2n` stack entries as alternating
key/value pairs, the value popped before its key; each key must be a string,
otherwise a runtime error is raised; when the same key occurs in more than
one pair, duplicates overwrite in pop order, so the resulting dict maps the
key to the value of its EARLIEST occurrence in the literal. -/
theorem claim5_op_dict (ps : List (String × Value)) (base : List Value)
    (fr : List Frame) (ou : List Nat) (H : Heap) :
    opDict ps.length ⟨base ++ dictLiteralPush ps, fr, ou, H⟩
      = .ok ⟨base ++ [Value.dictRef H.dicts.length], fr, ou,
          ⟨H.arrays, H.dicts ++ [dictItemsOf ps], H.instances⟩⟩
    ∧ (∀ k, tableGet (dictItemsOf ps) k
        = (ps.find? (fun p => p.1 == k)).map Prod.snd)
    ∧ (∀ (m : Nat) (bs : List Value) (v w : Value), isStringV w = false →
      opDict (m + 1) ⟨bs ++ [w, v], fr, ou, H⟩
        = .error "SKILL ISSUE: Dictionary keys must be strings.") := by
  refine ⟨?_, fun k => tableGet_dictItemsOf ps k, ?_⟩
  · unfold opDict
    dsimp only
    have h1 : (base ++ dictLiteralPush ps).reverse
        = popStream ps.reverse ++ base.reverse := by
      rw [List.reverse_append, reverse_dictLiteralPush]
    rw [h1,
      show ps.length = ps.reverse.length from (List.length_reverse ps).symm,
      dictPairsLoop_popStream]
    dsimp only
    rw [List.reverse_reverse]
    rfl
  · intro m bs v w hw
    unfold opDict
    dsimp only
    have h2 : (bs ++ [w, v]).reverse = v :: w :: bs.reverse := by simp
    rw [h2]
    cases w <;> simp [isStringV] at hw <;> simp [dictPairsLoop]

/-- Claim C5 witness: the amended theorem at the literal `{"a": 7}` on an
empty heap, and the key-type error at a numeric key. -/
theorem claim5_witness :
    opDict 1 ⟨[Value.vstr "a", Value.vnum 7], [], [], ⟨[], [], []⟩⟩
      = .ok ⟨[Value.dictRef 0], [], [], ⟨[], [[("a", Value.vnum 7)]], []⟩⟩
    ∧ opDict 1 ⟨[Value.vnum 3, Value.vnum 7], [], [], ⟨[], [], []⟩⟩
      = .error "SKILL ISSUE: Dictionary keys must be strings." := by
  have h := claim5_op_dict [("a", Value.vnum 7)] [] [] [] ⟨[], [], []⟩
  exact ⟨h.1, h.2.2 0 [] (Value.vnum 7) (Value.vnum 3) rfl⟩

/-- Claim C3: `OP_CALL n` dispatches on the callee peeked `n + 1` below the
stack top: a class overwrites that slot with a fresh instance and calls its
`init` method with `n` arguments when one exists, otherwise requires
`n = 0` (else runtime error); a closure requires `n` equal to its function's
arity (else runtime error) and pushes a frame whose base is
`top - n - 1`; any callee that is not a bound method, class, closure or
native raises "Can only call functions and classes." -/
theorem claim3_call_dispatch (bs args : List Value) (callee : Value)
    (fr : List Frame) (ou : List Nat) (H : Heap) :
    (∀ k, callee = Value.vclass k →
      (∀ m, tableGet k.methods "init" = some m →
        callValue ⟨bs ++ callee :: args, fr, ou, H⟩ args.length
          = call m args.length
              ⟨bs ++ Value.instanceRef H.instances.length :: args, fr, ou,
                ⟨H.arrays, H.dicts, H.instances ++ [⟨k, []⟩]⟩⟩)
      ∧ (tableGet k.methods "init" = none →
          (args.length = 0 →
            callValue ⟨bs ++ callee :: args, fr, ou, H⟩ args.length
              = .ok ⟨bs ++ Value.instanceRef H.instances.length :: args, fr,
                  ou, ⟨H.arrays, H.dicts, H.instances ++ [⟨k, []⟩]⟩⟩)
          ∧ (args.length ≠ 0 →
            callValue ⟨bs ++ callee :: args, fr, ou, H⟩ args.length
              = .error ("SKILL ISSUE: Expected 0 arguments but got "
                  ++ toString args.length ++ "."))))
    ∧ (∀ c, callee = Value.vclosure c →
      (args.length = c.function.arity →
        callValue ⟨bs ++ callee :: args, fr, ou, H⟩ args.length
          = .ok ⟨bs ++ callee :: args,
              ⟨c, 0, (bs ++ callee :: args).length - args.length - 1⟩ :: fr,
              ou, H⟩)
      ∧ (args.length ≠ c.function.arity →
        callValue ⟨bs ++ callee :: args, fr, ou, H⟩ args.length
          = .error ("SKILL ISSUE: Expected " ++ toString c.function.arity
              ++ " arguments but got " ++ toString args.length ++ ".")))
    ∧ (isNotCallable callee = true →
      callValue ⟨bs ++ callee :: args, fr, ou, H⟩ args.length
        = .error "SKILL ISSUE: Can only call functions and classes.") := by
  have hlen : (bs ++ callee :: args).length - 1 - args.length = bs.length := by
    simp only [List.length_append, List.length_cons]
    omega
  have hlen2 : (bs ++ callee :: args).length - args.length - 1
      = bs.length := by
    simp only [List.length_append, List.length_cons]
    omega
  have hpeek : peekV ⟨bs ++ callee :: args, fr, ou, H⟩ args.length
      = callee := by
    unfold peekV
    dsimp only
    rw [hlen, getD_append_length]
  refine ⟨?_, ?_, ?_⟩
  · intro k hk
    subst hk
    constructor
    · intro m hm
      unfold callValue
      rw [hpeek]
      dsimp only
      rw [hm, hlen2, set_append_length]
    · intro hm
      unfold callValue
      rw [hpeek]
      dsimp only
      rw [hm, hlen2, set_append_length]
      constructor
      · intro h0
        rw [if_neg (by omega)]
      · intro h0
        rw [if_pos h0]
  · intro c hc
    subst hc
    constructor
    · intro ha
      unfold callValue
      rw [hpeek]
      dsimp only
      unfold call
      rw [if_neg (by omega), hlen2]
    · intro ha
      unfold callValue
      rw [hpeek]
      dsimp only
      unfold call
      rw [if_pos ha]
  · intro hnc
    unfold callValue
    rw [hpeek]
    cases callee <;> simp [isNotCallable] at hnc <;> rfl

/-- Claim C3 witness: calling nil is the non-callable runtime error; calling
a two-parameter closure with one argument is the arity runtime error;
calling it with two arguments pushes a frame with base `top - n - 1 = 0`. -/
theorem claim3_witness :
    callValue ⟨[Value.vnil], [], [], ⟨[], [], []⟩⟩ 0
      = .error "SKILL ISSUE: Can only call functions and classes."
    ∧ callValue
        ⟨[Value.vclosure ⟨⟨2, 0, FunctionReturnType.TYPE_NONE, none⟩⟩,
            Value.vnum 1], [], [], ⟨[], [], []⟩⟩ 1
      = .error "SKILL ISSUE: Expected 2 arguments but got 1."
    ∧ callValue
        ⟨[Value.vclosure ⟨⟨2, 0, FunctionReturnType.TYPE_NONE, none⟩⟩,
            Value.vnum 1, Value.vnum 2], [], [], ⟨[], [], []⟩⟩ 2
      = .ok ⟨[Value.vclosure ⟨⟨2, 0, FunctionReturnType.TYPE_NONE, none⟩⟩,
            Value.vnum 1, Value.vnum 2],
          [⟨⟨⟨2, 0, FunctionReturnType.TYPE_NONE, none⟩⟩, 0, 0⟩], [],
          ⟨[], [], []⟩⟩ := by
  have h1 := (claim3_call_dispatch [] [] Value.vnil [] [] ⟨[], [], []⟩).2.2 rfl
  have h2 := ((claim3_call_dispatch [] [Value.vnum 1]
      (Value.vclosure ⟨⟨2, 0, FunctionReturnType.TYPE_NONE, none⟩⟩)
      [] [] ⟨[], [], []⟩).2.1
      ⟨⟨2, 0, FunctionReturnType.TYPE_NONE, none⟩⟩ rfl).2 (by decide)
  have h3 := ((claim3_call_dispatch [] [Value.vnum 1, Value.vnum 2]
      (Value.vclosure ⟨⟨2, 0, FunctionReturnType.TYPE_NONE, none⟩⟩)
      [] [] ⟨[], [], []⟩).2.1
      ⟨⟨2, 0, FunctionReturnType.TYPE_NONE, none⟩⟩ rfl).1 (by decide)
  exact ⟨h1, h2, h3⟩

end Omega
